import Mathlib

/-!
Verification of the logging-initializer crate (`src/lib.rs`): a shallow
embedding of `init`, `validate_config` and the external collaborators they
call, together with proofs about the sink-topology decision procedure, the
configuration validator, and filter-spec trimming.

The configuration source (environment variables) is modelled as a record of
optional strings; the process-wide dispatcher slot as an `Option Pipeline`;
the filesystem as an explicit state value threaded through `validate_config`.
-/

namespace TracingLogger

/-- The key-value configuration source read by `init` and `validate_config`:
one optional string per environment variable the crate consults. `none`
models an unset variable (`std::env::var` returning `Err`). -/
structure Config where
  rustLog : Option String
  logFileDir : Option String
  logFilePfx : Option String
  logFileOnly : Option String
  logEnableSpans : Option String
deriving DecidableEq, Repr

/-- Shallow embedding of Rust `str::trim` on the character list: drop
whitespace from the front, then from the back. -/
def trimList (l : List Char) : List Char :=
  ((l.dropWhile Char.isWhitespace).reverse.dropWhile Char.isWhitespace).reverse

/-- Shallow embedding of Rust `str::trim` (as used on the `RUST_LOG` value). -/
def rustTrim (s : String) : String :=
  ⟨trimList s.data⟩

/-- The only rotation the crate uses: `Rotation::DAILY`. -/
inductive Rotation where
  | daily
deriving DecidableEq, Repr

/-- The data `RollingFileAppender::new(Rotation::DAILY, &log_dir, &log_file_pfx)`
is constructed from. -/
structure RollingFileAppender where
  rotation : Rotation
  dir : String
  filePfx : String
deriving DecidableEq, Repr

/-- One `fmt::layer()` as configured by `init`: the builder-call chain
`.json().with_current_span(..).with_span_list(..)` plus the optional
`.with_span_events(ENTER | EXIT)` and `.with_writer(..)` calls, flattened
into a record. `writer = none` is the default console writer. -/
structure FmtLayer where
  json : Bool
  withCurrentSpan : Bool
  withSpanList : Bool
  spanEnterExit : Bool
  writer : Option RollingFileAppender
deriving DecidableEq, Repr

/-- The subscriber `init` hands to `try_init`: the registry's `EnvFilter`
(kept as the directive string it was built from) plus the attached layers,
in `.with(..)` order. -/
structure Pipeline where
  filter : String
  layers : List FmtLayer
deriving DecidableEq, Repr

/-- Sink classification of a layer: console (default writer) or file. -/
inductive SinkKind where
  | console
  | file
deriving DecidableEq, Repr

/-- The kind of sink a layer writes to, read off its writer. -/
def layerKind (l : FmtLayer) : SinkKind :=
  match l.writer with
  | none => SinkKind.console
  | some _ => SinkKind.file

/-- The sink topology of a pipeline: the kinds of its layers in order. -/
def sinkKinds (p : Pipeline) : List SinkKind :=
  p.layers.map layerKind

/-- Modelled from the spec: `EnvFilter::new` (tracing-subscriber, not in this
repository) "falls back silently to treating the raw string as best-effort" on
a malformed expression and never raises, so its model keeps the directive
string and always succeeds. An `Except` result records that a raising call
site would propagate. -/
def envFilterNew (s : String) : Except String String :=
  Except.ok s

/-- Modelled from the spec: `RollingFileAppender::new` (tracing-appender, not
in this repository) — "the Initializer does not surface directory-creation
failures (file sink construction may silently degrade to no output for that
sink)", so construction always succeeds. -/
def rollingFileAppenderNew (r : Rotation) (dir filePfx : String) :
    Except String RollingFileAppender :=
  Except.ok ⟨r, dir, filePfx⟩

/-- Modelled from the spec: the process-wide install primitive behind
`try_init` (not in this repository) — a "set-once" slot: "first caller wins",
a later attempt leaves the installed pipeline untouched and reports an error
that `init` swallows. Returns the new slot state and the `Result` of the
attempt. -/
def tryInitGlobal (st : Option Pipeline) (p : Pipeline) :
    Option Pipeline × Except String Unit :=
  match st with
  | none => (some p, Except.ok ())
  | some q => (some q, Except.error "a global default trace dispatcher has already been set")

/-- The console `fmt::layer()` chain built by `init` (no `.with_writer`). -/
def consoleLayer (enableSpans : Bool) : FmtLayer :=
  { json := true
    withCurrentSpan := enableSpans
    withSpanList := false
    spanEnterExit := enableSpans
    writer := none }

/-- The file `fmt::layer()` chain built by `init`: same builder calls plus
`.with_writer(file_appender)`. -/
def fileLayer (enableSpans : Bool) (app : RollingFileAppender) : FmtLayer :=
  { json := true
    withCurrentSpan := enableSpans
    withSpanList := false
    spanEnterExit := enableSpans
    writer := some app }

/-- `LOG_FILE_ONLY`: `std::env::var(..).unwrap_or_default() == "true"`. -/
def fileOnlyOf (cfg : Config) : Bool :=
  cfg.logFileOnly.getD "" == "true"

/-- `LOG_ENABLE_SPANS`: `std::env::var(..).unwrap_or_else(|_| "true") == "true"`. -/
def enableSpansOf (cfg : Config) : Bool :=
  cfg.logEnableSpans.getD "true" == "true"

/-- Shallow embedding of `init` from `src/lib.rs`. The dispatcher slot `st`
is the process-wide state `try_init` writes; the result is the slot after the
call. A raising call site would surface as `Except.error` (Rust panic /
propagated exception); `try_init`'s own `Result` is discarded with `let _ =`
exactly as in the source. -/
def init (cfg : Config) (st : Option Pipeline) : Except String (Option Pipeline) := do
  let env_filter ←
    match cfg.rustLog with
    | some val => envFilterNew (rustTrim val)
    | none => envFilterNew "info"
  let log_file_dir := cfg.logFileDir
  let log_file_pfx := cfg.logFilePfx.getD "app"
  let file_only := fileOnlyOf cfg
  let enable_spans := enableSpansOf cfg
  match log_file_dir, file_only with
  | some log_dir, false => do
      let console_layer := consoleLayer enable_spans
      let file_appender ← rollingFileAppenderNew Rotation.daily log_dir log_file_pfx
      let file_layer := fileLayer enable_spans file_appender
      let (st', r) := tryInitGlobal st { filter := env_filter, layers := [console_layer, file_layer] }
      let _ := r
      return st'
  | some log_dir, true => do
      let file_appender ← rollingFileAppenderNew Rotation.daily log_dir log_file_pfx
      let file_layer := fileLayer enable_spans file_appender
      let (st', r) := tryInitGlobal st { filter := env_filter, layers := [file_layer] }
      let _ := r
      return st'
  | none, _ => do
      let console_layer := consoleLayer enable_spans
      let (st', r) := tryInitGlobal st { filter := env_filter, layers := [console_layer] }
      let _ := r
      return st'

/-- The level names the filter grammar accepts on the right of `=`. -/
def levelNames : List String :=
  ["trace", "debug", "info", "warn", "error", "off"]

/-- Split a character list at every occurrence of a separator character
(the list-level meaning of splitting a string on a one-character pattern). -/
def splitChars (sep : Char) : List Char → List (List Char)
  | [] => [[]]
  | c :: t =>
    if c = sep then [] :: splitChars sep t
    else
      match splitChars sep t with
      | h :: r => (c :: h) :: r
      | [] => [[c]]

/-- Split a string on a one-character separator. -/
def splitOnChar (s : String) (sep : Char) : List String :=
  (splitChars sep s.data).map (fun l => ⟨l⟩)

/-- Lower-case a string character by character. -/
def lowerStr (s : String) : String :=
  ⟨s.data.map Char.toLower⟩

/-- Whether a string is a valid severity level (levels are case-insensitive). -/
def validLevel (s : String) : Bool :=
  levelNames.contains (lowerStr s)

/-- Modelled from the spec: one directive of the filter-expression grammar
(tracing-subscriber's `EnvFilter`, not in this repository) — "module-scoped
level directives, comma-separated, e.g. `info,moduleA=debug`": either a bare
level/target token, or `target=level`; anything with an unbalanced `=` or an
empty side is malformed. -/
def validDirective (d : String) : Bool :=
  match splitOnChar d '=' with
  | [t] => t != ""
  | [t, l] => t != "" && l != "" && validLevel l
  | _ => false

/-- Modelled from the spec: `EnvFilter::try_new` (not in this repository) —
parses the comma-separated directive list and "on parse failure returns an
error identifying the malformed expression". -/
def envFilterTryNew (s : String) : Except String Unit :=
  if s == "" then Except.ok ()
  else
    match (splitOnChar s ',').find? (fun d => !validDirective d) with
    | some d => Except.error ("invalid filter directive: " ++ d)
    | none => Except.ok ()

/-- A directory path split into components, the shape the filesystem model
stores: `"a/b/c"` becomes `["a", "b", "c"]`. -/
def splitPath (s : String) : List String :=
  (splitOnChar s '/').filter (fun c => c != "")

/-- The filesystem state `validate_config`'s side-effecting directory check
runs against: the set of existing directories (as component paths) and, for
each path, whether the OS would refuse to create it (`some e` is the I/O
error message). -/
structure FileSystem where
  dirs : List (List String)
  createErr : List String → Option String

/-- Modelled from the spec: `std::fs::create_dir_all` (not in this
repository) — "attempts to create the directory (and all missing ancestors)";
on success the directory and every ancestor exist afterwards, on failure the
underlying I/O error is returned. -/
def createDirAll (fs : FileSystem) (dir : String) : Except String FileSystem :=
  match fs.createErr (splitPath dir) with
  | some e => Except.error e
  | none => Except.ok { fs with dirs := (splitPath dir).inits ++ fs.dirs }

/-- Whether a directory exists in the modelled filesystem. -/
def dirExists (fs : FileSystem) (dir : String) : Bool :=
  fs.dirs.contains (splitPath dir)

/-- Shallow embedding of `validate_config` from `src/lib.rs`, with the
filesystem state made explicit: returns the Rust `Result<String, String>`
together with the filesystem after the side-effecting directory check. -/
def validate_config (cfg : Config) (fs : FileSystem) :
    Except String String × FileSystem :=
  let rust_log := cfg.rustLog.getD "info"
  let log_file_dir := cfg.logFileDir
  let log_file_pfx := cfg.logFilePfx.getD "app"
  let file_only := fileOnlyOf cfg
  let enable_spans := enableSpansOf cfg
  match envFilterTryNew (rustTrim rust_log) with
  | Except.error e => (Except.error ("Invalid RUST_LOG format: " ++ e), fs)
  | Except.ok _ =>
    let afterDir : Except String FileSystem :=
      match log_file_dir with
      | some dir =>
        match createDirAll fs dir with
        | Except.error e =>
          Except.error ("Cannot create log directory '" ++ dir ++ "': " ++ e)
        | Except.ok fs' => Except.ok fs'
      | none => Except.ok fs
    match afterDir with
    | Except.error msg => (Except.error msg, fs)
    | Except.ok fs' =>
      let config :=
        match log_file_dir, file_only with
        | some dir, false =>
          "Console + File logging to " ++ dir ++ "/" ++ log_file_pfx ++ ".YYYY-MM-DD"
        | some dir, true =>
          "File-only logging to " ++ dir ++ "/" ++ log_file_pfx ++ ".YYYY-MM-DD"
        | none, _ => "Console-only logging"
      let spans_status := if enable_spans then "enabled" else "disabled"
      (Except.ok ("✓ RUST_LOG: " ++ rust_log ++ "\n✓ Mode: " ++ config
          ++ "\n✓ Spans: " ++ spans_status), fs')

/-! ### Helper lemmas about trimming -/

lemma dropWhile_idem (p : Char → Bool) (l : List Char) :
    (l.dropWhile p).dropWhile p = l.dropWhile p := by
  induction l with
  | nil => simp
  | cons a t ih =>
    by_cases h : p a
    · simpa [List.dropWhile_cons, h] using ih
    · simp [List.dropWhile_cons, h]

lemma dropWhile_head?_not (p : Char → Bool) (l : List Char) (a : Char) (t : List Char)
    (h : l.dropWhile p = a :: t) : p a = false := by
  induction l with
  | nil => simp at h
  | cons b s ih =>
    rw [List.dropWhile_cons] at h
    by_cases hb : p b
    · exact ih (by simpa [hb] using h)
    · simp [hb] at h
      rw [← h.1]
      simpa using hb

lemma dropWhile_of_head?_not (p : Char → Bool) (l : List Char) (a : Char)
    (hh : l.head? = some a) (ha : p a = false) : l.dropWhile p = l := by
  cases l with
  | nil => simp at hh
  | cons b s =>
    simp at hh
    rw [List.dropWhile_cons, hh, ha]
    simp

lemma dropWhile_getLast? (p : Char → Bool) (l : List Char)
    (h : l.dropWhile p ≠ []) : (l.dropWhile p).getLast? = l.getLast? := by
  induction l with
  | nil => simp at h
  | cons b s ih =>
    rw [List.dropWhile_cons]
    by_cases hb : p b
    · rw [if_pos hb]
      rw [List.dropWhile_cons, if_pos hb] at h
      rw [ih h]
      cases s with
      | nil => simp [List.dropWhile] at h
      | cons c u => simp [List.getLast?_cons_cons]
    · rw [if_neg hb]

lemma trimList_idem (l : List Char) : trimList (trimList l) = trimList l := by
  unfold trimList
  set p := Char.isWhitespace with hp
  set A := l.dropWhile p with hA
  set B := A.reverse.dropWhile p with hB
  have hfix : B.reverse.dropWhile p = B.reverse := by
    cases hBe : B with
    | nil => simp [hBe]
    | cons c u =>
      have hBne : A.reverse.dropWhile p ≠ [] := by rw [← hB, hBe]; simp
      have hlast : B.getLast? = A.reverse.getLast? := by
        rw [hB]; exact dropWhile_getLast? p A.reverse hBne
      have hAne : A ≠ [] := by
        intro hAnil
        rw [hAnil] at hB
        simp [List.dropWhile] at hB
        rw [hB] at hBe
        exact List.noConfusion hBe
      obtain ⟨a, t, hAc⟩ := List.exists_cons_of_ne_nil hAne
      have hpa : p a = false := dropWhile_head?_not p l a t (by rw [← hA, hAc])
      have hhead : B.reverse.head? = some a := by
        rw [List.head?_reverse, hlast, List.getLast?_reverse, hAc]
        rfl
      rw [← hBe]
      exact dropWhile_of_head?_not p B.reverse a hhead hpa
  rw [hfix, List.reverse_reverse, hB, dropWhile_idem]

lemma rustTrim_idem (s : String) : rustTrim (rustTrim s) = rustTrim s := by
  unfold rustTrim
  rw [trimList_idem]

/-! ### Derived characterization of `init` -/

/-- The directive string `init`'s `EnvFilter` is built from. -/
def envFilterStrOf (cfg : Config) : String :=
  match cfg.rustLog with
  | some val => rustTrim val
  | none => "info"

/-- The layer list `init` attaches to the registry, by decision-table row. -/
def builtLayers (cfg : Config) : List FmtLayer :=
  match cfg.logFileDir, fileOnlyOf cfg with
  | some d, false =>
    [consoleLayer (enableSpansOf cfg),
     fileLayer (enableSpansOf cfg) ⟨Rotation.daily, d, cfg.logFilePfx.getD "app"⟩]
  | some d, true =>
    [fileLayer (enableSpansOf cfg) ⟨Rotation.daily, d, cfg.logFilePfx.getD "app"⟩]
  | none, _ => [consoleLayer (enableSpansOf cfg)]

/-- The whole subscriber `init` hands to the install primitive. -/
def builtPipeline (cfg : Config) : Pipeline :=
  { filter := envFilterStrOf cfg, layers := builtLayers cfg }

/-- `init` never escapes with an error and leaves the dispatcher slot exactly
as the set-once install primitive does on `builtPipeline cfg`. -/
lemma init_eq (cfg : Config) (st : Option Pipeline) :
    init cfg st = Except.ok (tryInitGlobal st (builtPipeline cfg)).1 := by
  cases hr : cfg.rustLog <;>
    cases hd : cfg.logFileDir <;>
      cases ho : fileOnlyOf cfg <;>
        simp [init, builtPipeline, builtLayers, envFilterStrOf, envFilterNew,
          rollingFileAppenderNew, hr, hd, ho, Bind.bind, Except.bind,
          Pure.pure, Except.pure]

/-- Whether a Rust `Result`-shaped value is the success case. -/
def exceptIsOk {ε α : Type} : Except ε α → Bool
  | Except.ok _ => true
  | Except.error _ => false

/-- A filesystem with no directories in which every creation succeeds. -/
def emptyFS : FileSystem :=
  { dirs := [], createErr := fun _ => none }

/-! ### Claim theorems -/

/-- C1, counterexample: at the configuration the spec calls the zero-sink
edge case (`fileOnly = "true"`, no `fileDir`), `init` installs a console
sink, so the zero-sink topology is not reachable. -/
theorem init_zero_sink_unreachable_cex :
    init ⟨none, none, none, some "true", none⟩ none
      = Except.ok (some { filter := "info", layers := [consoleLayer true] })
    ∧ sinkKinds { filter := "info", layers := [consoleLayer true] } = [SinkKind.console]
    ∧ (sinkKinds { filter := "info", layers := [consoleLayer true] }).isEmpty = false :=
  ⟨rfl, rfl, rfl⟩

/-- C1 (amended): `init` follows the decision table exactly — `fileDir`
present with `fileOnly` false gives console sink + file sink, `fileDir`
present with `fileOnly` true gives file sink only, and `fileDir` absent gives
console sink only regardless of `fileOnly`; these three are the only
reachable topologies, and the zero-sink topology is unreachable. -/
theorem init_topology_decision_table (cfg : Config) :
    ∃ p : Pipeline,
      init cfg none = Except.ok (some p)
      ∧ sinkKinds p =
          (match cfg.logFileDir, fileOnlyOf cfg with
           | some _, false => [SinkKind.console, SinkKind.file]
           | some _, true => [SinkKind.file]
           | none, _ => [SinkKind.console])
      ∧ (sinkKinds p).isEmpty = false := by
  refine ⟨builtPipeline cfg, by rw [init_eq]; rfl, ?_, ?_⟩ <;>
    cases hd : cfg.logFileDir <;> cases ho : fileOnlyOf cfg <;>
      simp [builtPipeline, builtLayers, sinkKinds, layerKind, consoleLayer, fileLayer, hd, ho]

/-- C2, counterexample: with `fileOnly = "true"` and no `fileDir`, the
installed pipeline has one sink — a console sink — not zero sinks. -/
theorem init_file_only_no_dir_cex :
    init ⟨some "debug", none, none, some "true", none⟩ none
      = Except.ok (some { filter := "debug", layers := [consoleLayer true] })
    ∧ ({ filter := "debug", layers := [consoleLayer true] } : Pipeline).layers.length = 1
    ∧ sinkKinds { filter := "debug", layers := [consoleLayer true] } = [SinkKind.console] :=
  ⟨rfl, rfl, rfl⟩

/-- C2 (amended): for any configuration with `fileOnly = "true"` and `fileDir`
absent, `init` raises no error and installs a console-only pipeline (one
console sink, no file sink); a zero-sink pipeline is never constructed. -/
theorem init_file_only_no_dir_console (rust pfx spans : Option String) :
    ∃ p : Pipeline,
      init ⟨rust, none, pfx, some "true", spans⟩ none = Except.ok (some p)
      ∧ sinkKinds p = [SinkKind.console]
      ∧ (sinkKinds p).isEmpty = false := by
  refine ⟨builtPipeline ⟨rust, none, pfx, some "true", spans⟩, by rw [init_eq]; rfl, ?_, ?_⟩ <;>
    simp [builtPipeline, builtLayers, sinkKinds, layerKind, consoleLayer]

/-- C3, counterexample: the spans value `"yes"` (any value other than the
literal `"true"`) disables span enter/exit emission, although the claim says
any value other than `"false"` keeps it enabled. -/
theorem spans_yes_disables_cex :
    enableSpansOf ⟨none, none, none, none, some "yes"⟩ = false
    ∧ init ⟨none, none, none, none, some "yes"⟩ none
        = Except.ok (some { filter := "info", layers := [consoleLayer false] })
    ∧ (consoleLayer false).spanEnterExit = false :=
  ⟨rfl, rfl, rfl⟩

/-- C3 (amended): span enter/exit emission is enabled exactly when the
spans-enabled key is absent or is the literal string `"true"`; any other
value (including `"TRUE"`, `"1"`, `"yes"`, and also `"false"`) disables it,
and every layer `init` builds carries that same flag. -/
theorem spans_enabled_iff_absent_or_true (cfg : Config) :
    enableSpansOf cfg =
      (match cfg.logEnableSpans with
       | none => true
       | some v => v == "true")
    ∧ ∃ p : Pipeline,
        init cfg none = Except.ok (some p)
        ∧ (p.layers.all fun l => l.spanEnterExit == enableSpansOf cfg) = true := by
  constructor
  · cases h : cfg.logEnableSpans <;> simp [enableSpansOf, h]
  · refine ⟨builtPipeline cfg, by rw [init_eq]; rfl, ?_⟩
    cases hd : cfg.logFileDir <;> cases ho : fileOnlyOf cfg <;>
      simp [builtPipeline, builtLayers, consoleLayer, fileLayer, hd, ho]

/-- C4: `init` returns normally on every configuration and every dispatcher
state — no error escapes to the caller. -/
theorem init_never_raises (cfg : Config) (st : Option Pipeline) :
    ∃ st' : Option Pipeline, init cfg st = Except.ok st' :=
  ⟨_, init_eq cfg st⟩

/-- C5: the first `init` call installs a pipeline, and any later `init` call
made while a pipeline is installed returns normally and leaves that pipeline
exactly as it was — no second sink set is attached, so `init` composed with
itself equals a single `init`. -/
theorem init_second_call_noop (cfg cfg' : Config) :
    (∃ p : Pipeline, init cfg none = Except.ok (some p))
    ∧ ∀ p : Pipeline, init cfg' (some p) = Except.ok (some p) := by
  refine ⟨⟨builtPipeline cfg, by rw [init_eq]; rfl⟩, fun p => by rw [init_eq]; rfl⟩

/-- C6: `validate_config` accepts the filter specs `"info"`, `"debug"`,
`"off"` and `"moduleA=info,moduleB=warn"`, and rejects a spec with an
unbalanced `=`, returning an error that names the malformed expression. -/
theorem validate_config_filter_grammar :
    exceptIsOk (validate_config ⟨some "info", none, none, none, none⟩ emptyFS).1 = true
    ∧ exceptIsOk (validate_config ⟨some "debug", none, none, none, none⟩ emptyFS).1 = true
    ∧ exceptIsOk (validate_config ⟨some "off", none, none, none, none⟩ emptyFS).1 = true
    ∧ exceptIsOk
        (validate_config ⟨some "moduleA=info,moduleB=warn", none, none, none, none⟩ emptyFS).1
        = true
    ∧ (validate_config ⟨some "moduleA==info", none, none, none, none⟩ emptyFS).1
        = Except.error "Invalid RUST_LOG format: invalid filter directive: moduleA==info" :=
  ⟨rfl, rfl, rfl, rfl, rfl⟩

/-- C7: when `fileDir` is present and the filter spec parses, the directory
check drives the result — on an uncreatable path `validate_config` returns an
error naming the path and the underlying I/O failure and leaves the
filesystem unchanged; on a creatable path it succeeds and afterwards the
directory and all its ancestors exist. -/
theorem validate_config_creates_dir (cfg : Config) (fs : FileSystem) (dir : String)
    (hdir : cfg.logFileDir = some dir)
    (hfilter : envFilterTryNew (rustTrim (cfg.rustLog.getD "info")) = Except.ok ()) :
    match fs.createErr (splitPath dir) with
    | some e =>
        validate_config cfg fs
          = (Except.error ("Cannot create log directory '" ++ dir ++ "': " ++ e), fs)
    | none =>
        exceptIsOk (validate_config cfg fs).1 = true
        ∧ dirExists (validate_config cfg fs).2 dir = true
        ∧ ((splitPath dir).inits.all
            fun pre => (validate_config cfg fs).2.dirs.contains pre) = true := by
  cases hc : fs.createErr (splitPath dir) with
  | some e =>
    simp [validate_config, hdir, hfilter, createDirAll, hc]
  | none =>
    refine ⟨?_, ?_, ?_⟩
    · simp [validate_config, hdir, hfilter, createDirAll, hc, exceptIsOk]
    · simp [validate_config, hdir, hfilter, createDirAll, hc, dirExists,
        List.contains, List.elem_iff]
    · simp [validate_config, hdir, hfilter, createDirAll, hc, List.all_eq_true,
        List.contains, List.elem_iff]
      intro pre hpre
      exact Or.inl hpre

/-- C7 witness: on a fresh filesystem, validating a configuration with
`fileDir = "tmp/a/b"` succeeds and the directory and its ancestors exist
afterwards. -/
theorem validate_config_creates_dir_witness :
    exceptIsOk (validate_config ⟨none, some "tmp/a/b", none, none, none⟩ emptyFS).1 = true
    ∧ dirExists (validate_config ⟨none, some "tmp/a/b", none, none, none⟩ emptyFS).2 "tmp/a/b"
        = true
    ∧ ((splitPath "tmp/a/b").inits.all
        fun pre =>
          (validate_config ⟨none, some "tmp/a/b", none, none, none⟩ emptyFS).2.dirs.contains pre)
        = true :=
  validate_config_creates_dir ⟨none, some "tmp/a/b", none, none, none⟩ emptyFS "tmp/a/b" rfl rfl

/-- C8: with no configuration keys set, `validate_config` succeeds and its
summary reports filter `info`, the literal `Console-only logging`, and spans
`enabled`. -/
theorem validate_config_default_summary :
    (validate_config ⟨none, none, none, none, none⟩ emptyFS).1
      = Except.ok "✓ RUST_LOG: info\n✓ Mode: Console-only logging\n✓ Spans: enabled" :=
  rfl

/-- C9: the filter value is trimmed before parsing in both `init` and
`validate_config`: validation succeeds on a padded value exactly when it
succeeds on the trimmed value, and `init` behaves identically on both. -/
theorem filter_whitespace_trimmed (cfg : Config) (fs : FileSystem) (v : String) :
    exceptIsOk (validate_config { cfg with rustLog := some v } fs).1
      = exceptIsOk (validate_config { cfg with rustLog := some (rustTrim v) } fs).1
    ∧ ∀ st : Option Pipeline,
        init { cfg with rustLog := some v } st
          = init { cfg with rustLog := some (rustTrim v) } st := by
  constructor
  · simp only [validate_config, Option.getD_some, rustTrim_idem]
    cases hf : envFilterTryNew (rustTrim v) with
    | error e => simp
    | ok u =>
      cases hd : cfg.logFileDir with
      | none => simp [hd, exceptIsOk]
      | some dir =>
        simp only [hd]
        cases hc : createDirAll fs dir with
        | error e => simp [hc, exceptIsOk]
        | ok fs' => simp [hc, exceptIsOk]
  · intro st
    rw [init_eq, init_eq]
    simp [builtPipeline, envFilterStrOf, builtLayers, fileOnlyOf, enableSpansOf, rustTrim_idem]

/-- C10: when the filter spec is malformed, `validate_config` returns the
filter error and leaves the filesystem untouched — the filter spec is checked
before any directory creation. -/
theorem validate_config_filter_before_dir (cfg : Config) (fs : FileSystem) (e : String)
    (h : envFilterTryNew (rustTrim (cfg.rustLog.getD "info")) = Except.error e) :
    validate_config cfg fs = (Except.error ("Invalid RUST_LOG format: " ++ e), fs) := by
  simp [validate_config, h]

/-- C10 witness: a malformed filter spec together with an uncreatable
directory yields the filter error, and the filesystem is unchanged. -/
theorem validate_config_filter_before_dir_witness :
    envFilterTryNew
        (rustTrim ((⟨some "a==b", some "tmp/x", none, none, none⟩ : Config).rustLog.getD "info"))
      = Except.error "invalid filter directive: a==b"
    ∧ validate_config ⟨some "a==b", some "tmp/x", none, none, none⟩
        ⟨[], fun _ => some "permission denied"⟩
      = (Except.error "Invalid RUST_LOG format: invalid filter directive: a==b",
         ⟨[], fun _ => some "permission denied"⟩) :=
  ⟨rfl, validate_config_filter_before_dir _ _ _ rfl⟩

end TracingLogger
